import Mathlib

/-!
Verification development for the "ich-sehe-was" picture-guessing game.

The definitions below are a shallow embedding of the game's TypeScript
source into Lean:

* the spatial object model (`getPolygonArea`, `isPointInPolygon`,
  `getObjectsAtPosition`) from `src/components/InteractiveImageViewer.tsx`;
* the click / cycle-through-stack logic of the interactive viewer
  (`handlePolygonClick`) together with the `selectedObjectId` reset effect
  of the same component and the parent's selection feedback;
* the hover resolution (`handleSetHoveredObject`) of the segmentation
  viewer;
* the round orchestration handlers of `App.tsx` (`calculatePoints`,
  `handleMaskClick`, `handleYes`, `handleNo`, `handleAiGuess`, the
  AI-guessing dispatch effect, the speech-error effect) over an explicit
  application state record;
* the description service fallback of `services/geminiService.ts`.

Numbers are modelled as exact rationals (the source uses JS floats but all
relevant computations are field arithmetic), strings as Lean strings, and
React `useState` state as explicit record-passing: each event handler
becomes a function `AppState → AppState`.
-/

/-- A detected game object: stable id, label, polygon mask (list of
(x, y) points), display color.  Mirrors `GameObject` in `types.ts`;
the optional raster-mask fields are a presentation concern and are not
part of the spatial model. -/
structure GameObject where
  id : String
  label : String
  mask : List (ℚ × ℚ)
  color : String
deriving DecidableEq

/-- Bounding-box area of a polygon mask; masks with fewer than 3 points
have area 0.  Mirrors `getPolygonArea` in `InteractiveImageViewer.tsx`. -/
def getPolygonArea (mask : List (ℚ × ℚ)) : ℚ :=
  match mask with
  | [] => 0
  | p :: ps =>
    if (p :: ps : List (ℚ × ℚ)).length < 3 then 0
    else
      let minX := (ps.map Prod.fst).foldl min p.1
      let maxX := (ps.map Prod.fst).foldl max p.1
      let minY := (ps.map Prod.snd).foldl min p.2
      let maxY := (ps.map Prod.snd).foldl max p.2
      (maxX - minX) * (maxY - minY)

/-- One iteration of the ray-casting loop in `isPointInPolygon`:
the edge from `pj` (previous vertex) to `pi` (current vertex) is counted
when the vertices straddle the horizontal line through the point
(half-open rule) and the edge crosses that line strictly to the right of
the point. -/
def edgeCross (x y : ℚ) (pcur pprev : ℚ × ℚ) : Bool :=
  (decide (pcur.2 > y) != decide (pprev.2 > y)) &&
  decide (x < (pprev.1 - pcur.1) * (y - pcur.2) / (pprev.2 - pcur.2) + pcur.1)

/-- Ray-casting point-in-polygon test; mirrors `isPointInPolygon` in
`InteractiveImageViewer.tsx`.  The JS loop pairs index `i` with
`j = i - 1 mod n`, i.e. each vertex with its predecessor (the predecessor
of the first vertex being the last), and flips `inside` on each counted
edge. -/
def isPointInPolygon (point : ℚ × ℚ) (polygon : List (ℚ × ℚ)) : Bool :=
  match polygon with
  | [] => false
  | p :: ps =>
    let pts : List (ℚ × ℚ) := p :: ps
    let prevs : List (ℚ × ℚ) := pts.getLast (List.cons_ne_nil p ps) :: pts.dropLast
    (pts.zip prevs).foldl
      (fun inside e => if edgeCross point.1 point.2 e.1 e.2 then !inside else inside)
      false

/-- All objects whose mask contains the click position; mirrors
`getObjectsAtPosition` in `InteractiveImageViewer.tsx`. -/
def getObjectsAtPosition (objects : List GameObject) (clickPos : ℚ × ℚ) :
    List GameObject :=
  objects.filter (fun obj => isPointInPolygon clickPos obj.mask)

/-- Number of polygon edges (vertex paired with its cyclic predecessor)
that a horizontal ray from the point, going right, crosses — counted with
the half-open rule.  This is the containment notion the specification
itself uses to define "inside". -/
def specRayCrossings (point : ℚ × ℚ) (polygon : List (ℚ × ℚ)) : ℕ :=
  match polygon with
  | [] => 0
  | p :: ps =>
    let pts : List (ℚ × ℚ) := p :: ps
    let prevs : List (ℚ × ℚ) := pts.getLast (List.cons_ne_nil p ps) :: pts.dropLast
    (pts.zip prevs).countP (fun e => edgeCross point.1 point.2 e.1 e.2)

/-- Modelled from the spec's definition of containment: a point is inside
a polygon when a horizontal ray from the point crosses an odd number of
polygon edges, edges counted with the half-open rule. -/
def specInside (point : ℚ × ℚ) (polygon : List (ℚ × ℚ)) : Prop :=
  Odd (specRayCrossings point polygon)

/-- Smallest x-coordinate of a mask (0 for the empty mask). -/
def maskMinX : List (ℚ × ℚ) → ℚ
  | [] => 0
  | p :: ps => (ps.map Prod.fst).foldl min p.1

/-- Largest x-coordinate of a mask (0 for the empty mask). -/
def maskMaxX : List (ℚ × ℚ) → ℚ
  | [] => 0
  | p :: ps => (ps.map Prod.fst).foldl max p.1

/-- Smallest y-coordinate of a mask (0 for the empty mask). -/
def maskMinY : List (ℚ × ℚ) → ℚ
  | [] => 0
  | p :: ps => (ps.map Prod.snd).foldl min p.2

/-- Largest y-coordinate of a mask (0 for the empty mask). -/
def maskMaxY : List (ℚ × ℚ) → ℚ
  | [] => 0
  | p :: ps => (ps.map Prod.snd).foldl max p.2

/-- A point lies strictly outside the axis-aligned bounding box of a mask. -/
def strictlyOutsideBBox (point : ℚ × ℚ) (mask : List (ℚ × ℚ)) : Prop :=
  point.1 < maskMinX mask ∨ maskMaxX mask < point.1 ∨
  point.2 < maskMinY mask ∨ maskMaxY mask < point.2

/-- Score-from-attempts mapping; mirrors `calculatePoints` in `App.tsx`
(attempt counts are naturals in the app; the `attempts >= 5` branch
returns 2 and anything below 1 falls through to 0). -/
def calculatePoints (attempts : ℕ) : ℕ :=
  if attempts = 1 then 10
  else if attempts = 2 then 8
  else if attempts = 3 then 6
  else if attempts = 4 then 4
  else if attempts ≥ 5 then 2
  else 0

/-- Comparator used when `handlePolygonClick` sorts the hit set:
ascending bounding-box area, "smallest first for better UX". -/
def areaLE (a b : GameObject) : Bool :=
  decide (getPolygonArea a.mask ≤ getPolygonArea b.mask)

/-- Component-local state of `InteractiveImageViewer` relevant to click
resolution, together with the parent-controlled `selectedObjectId` prop
(in the picking flow the parent sets it to the id reported through
`onMaskClick`). -/
structure ViewerState where
  selectedObjectId : Option String
  clickedObject : Option GameObject
  objectsAtLastClick : List GameObject
  currentObjectIndex : ℕ
deriving DecidableEq

/-- Initial viewer state: nothing selected, no previous click. -/
def initialViewerState : ViewerState :=
  { selectedObjectId := none
    clickedObject := none
    objectsAtLastClick := []
    currentObjectIndex := 0 }

/-- A default object for safe list indexing (never selected: indices used
are always in bounds). -/
def defaultObject : GameObject := { id := "", label := "", mask := [], color := "" }

/-- Mirrors `handlePolygonClick` in `InteractiveImageViewer.tsx` (with
`disabled = false`): computes the hit set at the click position, sorts it
by ascending area, then either resets (empty hit set), cycles (same hit
set as the previous click, more than one member), or starts a fresh cycle
at index 0.  Returns the new local state and the id passed to
`onMaskClick` (if any). -/
def handlePolygonClick (objects : List GameObject) (clickPos : ℚ × ℚ)
    (vs : ViewerState) : ViewerState × Option String :=
  let objectsAtClick := getObjectsAtPosition objects clickPos
  if objectsAtClick = [] then
    ({ vs with clickedObject := none, objectsAtLastClick := [], currentObjectIndex := 0 },
     none)
  else
    let sorted := objectsAtClick.mergeSort areaLE
    let isSamePosition :=
      decide (vs.objectsAtLastClick.length > 0) &&
      decide (sorted.length = vs.objectsAtLastClick.length) &&
      sorted.all (fun obj => vs.objectsAtLastClick.any (fun lastObj => lastObj.id == obj.id))
    if isSamePosition && decide (sorted.length > 1) then
      let nextIndex := (vs.currentObjectIndex + 1) % sorted.length
      let sel := sorted.getD nextIndex defaultObject
      ({ vs with currentObjectIndex := nextIndex, clickedObject := some sel },
       some sel.id)
    else
      let sel := sorted.getD 0 defaultObject
      ({ vs with objectsAtLastClick := sorted, currentObjectIndex := 0,
                 clickedObject := some sel },
       some sel.id)

/-- One click in the picking flow: the viewer handles the click, the
parent (`App.handleMaskClick` in the `USER_PICKING` / `USER_CONFIRMING`
branches) stores the reported object as `userSelection`, and — whenever
that changes the `selectedObjectId` prop — the viewer's reset effect
(`useEffect` on `[selectedObjectId, objects]`) clears the cycle state and
re-derives `clickedObject` from the prop. -/
def pickingClick (objects : List GameObject) (clickPos : ℚ × ℚ)
    (vs : ViewerState) : ViewerState :=
  let res := handlePolygonClick objects clickPos vs
  match res.2 with
  | none => res.1
  | some i =>
    if vs.selectedObjectId = some i then res.1
    else
      { res.1 with
          selectedObjectId := some i
          clickedObject := objects.find? (fun o => o.id == i)
          objectsAtLastClick := []
          currentObjectIndex := 0 }

/-- Screen-space bounding rectangle of a rendered mask together with the
`data-object-id` attribute (absent or empty attributes are falsy in JS). -/
structure MaskRect where
  top : ℚ
  left : ℚ
  width : ℚ
  height : ℚ
  objectId : Option String
deriving DecidableEq

/-- Area of a screen-space rectangle. -/
def rectArea (r : MaskRect) : ℚ := r.width * r.height

/-- The pointer lies strictly inside the rectangle (the JS test uses
strict inequalities on all four sides). -/
def rectContains (r : MaskRect) (clientX clientY : ℚ) : Bool :=
  decide (clientX > r.left) && decide (clientX < r.left + r.width) &&
  decide (clientY > r.top) && decide (clientY < r.top + r.height)

/-- Comparator used by the hover handlers: ascending rectangle area. -/
def rectAreaLE (a b : MaskRect) : Bool := decide (rectArea a ≤ rectArea b)

/-- Mirrors `handleSetHoveredObject` in `SegmentationMaskViewer`
(and the identical `handleSetHoveredBox`): collect the rendered masks'
bounding rectangles, sort them by ascending area, take the first one that
contains the pointer, and hover its object id (null when none contains it
or the found rectangle has no truthy id). -/
def handleSetHoveredObject (rects : List MaskRect) (clientX clientY : ℚ) :
    Option String :=
  let sorted := rects.mergeSort rectAreaLE
  match sorted.find? (fun r => rectContains r clientX clientY) with
  | some found =>
    match found.objectId with
    | some i => if i = "" then none else some i
    | none => none
  | none => none

/-- Game phases; mirrors the `GameState` enum in `types.ts`. -/
inductive GState where
  | START
  | LOADING_OBJECTS
  | USER_PICKING
  | USER_CONFIRMING
  | USER_DESCRIBING
  | AI_GUESSING
  | AI_PICKING
  | USER_GUESSING
  | ROUND_OVER
  | ERROR
deriving DecidableEq

/-- Running score; mirrors `Score` in `types.ts`. -/
structure Score where
  user : ℕ
  ai : ℕ
deriving DecidableEq

/-- The `App` component's state relevant to round orchestration
(each `useState` field becomes a record field). -/
structure AppState where
  gameState : GState
  score : Score
  objects : List GameObject
  message : String
  userSelection : Option GameObject
  aiSelection : Option GameObject
  aiGuesses : List GameObject
  attemptCount : ℕ
deriving DecidableEq

/-- Mirrors `handleMaskClick` in `App.tsx`: look the clicked id up in the
round's objects, then branch on the phase.  In `USER_GUESSING` the attempt
counter is incremented; a click on the AI's picked object ends the round
and awards `calculatePoints` of the new attempt count (the JS closure
reads the pre-increment `attemptCount`, hence `attemptCount + 1`); any
other click only updates the message. -/
def handleMaskClick (s : AppState) (objectId : String) : AppState :=
  match s.objects.find? (fun o => o.id == objectId) with
  | none => s
  | some clickedObject =>
    if s.gameState = GState.USER_PICKING then
      { s with userSelection := some clickedObject
               gameState := GState.USER_CONFIRMING
               message := "Du hast \"" ++ clickedObject.label ++ "\" ausgewählt. Bestätigen?" }
    else if s.gameState = GState.USER_CONFIRMING then
      { s with userSelection := some clickedObject
               message := "Du hast \"" ++ clickedObject.label ++ "\" ausgewählt. Bestätigen?" }
    else if s.gameState = GState.USER_GUESSING then
      match s.aiSelection with
      | some aiSel =>
        if clickedObject.id = aiSel.id then
          let points := calculatePoints (s.attemptCount + 1)
          { s with attemptCount := s.attemptCount + 1
                   score := { s.score with user := s.score.user + points }
                   gameState := GState.ROUND_OVER
                   message := "Richtig! Das war \"" ++ aiSel.label ++ "\". Du erhältst "
                              ++ toString points ++ " Punkte." }
        else
          { s with attemptCount := s.attemptCount + 1
                   message := "Das ist \"" ++ clickedObject.label
                              ++ "\". Leider falsch. Versuch es nochmal!" }
      | none => s
    else s

/-- Mirrors `handleYes` in `App.tsx` (the human confirms the AI's current
guess): award `calculatePoints attemptCount` to the AI and end the round.
There is no check that the presented candidate equals `userSelection`. -/
def handleYes (s : AppState) : AppState :=
  let points := calculatePoints s.attemptCount
  { s with score := { s.score with ai := s.score.ai + points }
           gameState := GState.ROUND_OVER
           message := "Die KI hat es im " ++ toString s.attemptCount
                      ++ ". Versuch erraten und " ++ toString points ++ " Punkte bekommen!" }

/-- Mirrors `handleNo` in `App.tsx`: increment the attempt counter and pop
the front of the guess queue. -/
def handleNo (s : AppState) : AppState :=
  { s with attemptCount := s.attemptCount + 1
           aiGuesses := s.aiGuesses.tail }

/-- JS `toLowerCase` on the ASCII range, as a per-character map (the same
mapping as `String.toLower`, in a form the kernel can evaluate). -/
def toLowerString (s : String) : String := ⟨s.data.map Char.toLower⟩

/-- Mirrors `handleAiGuess` in `App.tsx`: with a non-empty queue, the
front candidate's label is matched case-insensitively against the round's
objects; a match replaces the front by the stored object (keeping the
guess entry's id and color) and presents the yes/no prompt, a mismatch
silently drops the candidate.  With an empty queue (and a user selection)
the round ends with the 10-point failure bonus for the human. -/
def handleAiGuess (s : AppState) : AppState :=
  match s.aiGuesses, s.userSelection with
  | currentGuess :: rest, some _ =>
    match s.objects.find? (fun o => toLowerString o.label == toLowerString currentGuess.label) with
    | some originalObject =>
      { s with aiGuesses := { originalObject with id := currentGuess.id,
                                                  color := currentGuess.color } :: rest
               message := "Ist es \"" ++ originalObject.label ++ "\"?" }
    | none => { s with aiGuesses := rest }
  | [], some userSel =>
    { s with gameState := GState.ROUND_OVER
             message := "Die KI konnte dein Objekt \"" ++ userSel.label ++ "\" nicht erraten."
             score := { s.score with user := s.score.user + 10 } }
  | _, none => s

/-- One firing of the AI-guessing dispatch effect in `App.tsx`:
`handleAiGuess` runs only when the phase is `AI_GUESSING` and the guess
queue is non-empty. -/
def effectStep (s : AppState) : AppState :=
  if s.gameState = GState.AI_GUESSING ∧ s.aiGuesses ≠ [] then handleAiGuess s else s

/-- The dispatch effect re-fires after every state change it causes;
iterate `effectStep` until the state stops changing (the fuel below always
suffices: each non-presenting step shortens the queue). -/
def effectIter : ℕ → AppState → AppState
  | 0, s => s
  | n + 1, s =>
    let t := effectStep s
    if t = s then s else effectIter n t

/-- The observable result of the `guessRejected` event (pressing "Nein"):
`handleNo` runs, then the dispatch effect settles. -/
def guessRejected (s : AppState) : AppState :=
  effectIter (s.aiGuesses.length + 2) (handleNo s)

/-- A needle occurs contiguously in a haystack of characters. -/
def infixOfList (needle : List Char) : List Char → Bool
  | [] => needle.isEmpty
  | c :: rest => needle.isPrefixOf (c :: rest) || infixOfList needle rest

/-- JS `String.prototype.includes`: the needle occurs contiguously in the
haystack (checked on the underlying character lists). -/
def includesSubstr (s sub : String) : Bool := infixOfList sub.data s.data

/-- Mirrors `recognition.onerror` in `hooks/useSpeech.ts`: the raw Web
Speech error code becomes the hook's error value unchanged. -/
def speechErrorToMessage (code : String) : String := code

/-- Mirrors the speech-error effect in `App.tsx`: show the error text as
the message; switch to the `ERROR` phase only when the text contains one
of three German fragments (denied microphone access, not supported, not
available). -/
def speechErrorEffect (s : AppState) (err : String) : AppState :=
  let s1 := { s with message := err }
  if includesSubstr err "Mikrofon-Zugriff verweigert" ||
     includesSubstr err "nicht unterstützt" ||
     includesSubstr err "nicht verfügbar" then
    { s1 with gameState := GState.ERROR }
  else s1

/-- A speech-capture error as the orchestrator sees it: the hook reports
the raw code, the `App` effect reacts to it. -/
def onSpeechError (s : AppState) (code : String) : AppState :=
  speechErrorEffect s (speechErrorToMessage code)

/-- The fallback sentinel of `generateDescriptionForObject` in
`services/geminiService.ts`. -/
def descriptionFallback : String := "konnte keine Beschreibung erstellen"

/-- Mirrors `generateDescriptionForObject`'s handling of the model
response (`response?.text?.trim() || fallback`): a missing or
whitespace-only text yields the fallback sentinel. -/
def generateDescriptionForObject (responseText : Option String) : String :=
  match responseText with
  | none => descriptionFallback
  | some t => let s := t.trim; if s = "" then descriptionFallback else s

/-- Mirrors the resolved branch of the AI-picking effect in `App.tsx`:
with a chosen object and a (possibly fallback) description the clue is
announced and the game moves to `USER_GUESSING` with a fresh attempt
counter. -/
def aiPickingResolve (s : AppState) (selection : GameObject) (description : String) :
    AppState :=
  { s with aiSelection := some selection
           message := "Ich sehe was, was du nicht siehst, und das ist " ++ description
           gameState := GState.USER_GUESSING
           attemptCount := 0 }

/-- Small square object centred at (1/2, 1/2) — the "A (small)" of the
overlap scenario; bounding-box area 1/25. -/
def objA : GameObject :=
  { id := "A", label := "Apfel"
    mask := [(2/5, 2/5), (3/5, 2/5), (3/5, 3/5), (2/5, 3/5)]
    color := "#ef4444" }

/-- Full-frame square object — the "B (large)" of the overlap scenario;
bounding-box area 1. -/
def objB : GameObject :=
  { id := "B", label := "Tisch"
    mask := [(0, 0), (1, 0), (1, 1), (0, 1)]
    color := "#22c55e" }

/-- An object whose mask is degenerate (2 points). -/
def objDegenerate : GameObject :=
  { id := "D", label := "Strich", mask := [(0, 0), (1, 1)], color := "#888888" }

/-- Detection order with the large object first, so ascending-area sorting
is observable. -/
def stackObjs : List GameObject := [objB, objA]

/-- The click point of the overlap scenario, inside both objects. -/
def clickPt : ℚ × ℚ := (1/2, 1/2)

/-- An AI guess entry whose label matches `objA` (guesses carry their own
ids and a dedicated color). -/
def guessA : GameObject := { objA with id := "guess-0", color := "#FFD70080" }

/-- An AI guess entry whose label matches no stored object. -/
def guessStuhl : GameObject :=
  { id := "guess-0", label := "Stuhl", mask := [], color := "#FFD70080" }

/-- AI-guessing state with exactly one (matching, already presented)
candidate left. -/
def s3 : AppState :=
  { gameState := GState.AI_GUESSING, score := { user := 0, ai := 0 }
    objects := stackObjs, message := "Ist es \"Apfel\"?"
    userSelection := some objA, aiSelection := none
    aiGuesses := [guessA], attemptCount := 1 }

/-- Human-describing state awaiting a transcript. -/
def s4 : AppState :=
  { gameState := GState.USER_DESCRIBING, score := { user := 0, ai := 0 }
    objects := stackObjs, message := ""
    userSelection := some objA, aiSelection := none
    aiGuesses := [], attemptCount := 0 }

/-- AI-guessing state whose front candidate matches no stored object. -/
def s7 : AppState :=
  { gameState := GState.AI_GUESSING, score := { user := 0, ai := 0 }
    objects := stackObjs, message := ""
    userSelection := some objA, aiSelection := none
    aiGuesses := [guessStuhl, guessA], attemptCount := 1 }

/-- AI-picking state awaiting the description. -/
def s8 : AppState :=
  { gameState := GState.AI_PICKING, score := { user := 0, ai := 0 }
    objects := stackObjs, message := ""
    userSelection := none, aiSelection := none
    aiGuesses := [], attemptCount := 0 }

/-- Human-guessing state in which the AI picked `objA`. -/
def s9 : AppState :=
  { gameState := GState.USER_GUESSING, score := { user := 2, ai := 3 }
    objects := stackObjs, message := ""
    userSelection := none, aiSelection := some objA
    aiGuesses := [], attemptCount := 0 }

/-- Large screen-space rectangle (area 100). -/
def rBig : MaskRect := { top := 0, left := 0, width := 10, height := 10, objectId := some "B" }

/-- Small screen-space rectangle nested inside `rBig` (area 4). -/
def rSmall : MaskRect := { top := 2, left := 2, width := 2, height := 2, objectId := some "A" }

/-- Hover candidates with the large rectangle listed first. -/
def hoverRects : List MaskRect := [rBig, rSmall]
/-- Viewer state after the first click of the overlap scenario: A is
selected, and the reset effect has cleared the cycle state. -/
def v1 : ViewerState :=
  { selectedObjectId := some "A", clickedObject := some objA
    objectsAtLastClick := [], currentObjectIndex := 0 }

/-- Viewer state after the second click: still A, but now with cycle
state (no reset, since the selection did not change). -/
def v2 : ViewerState :=
  { selectedObjectId := some "A", clickedObject := some objA
    objectsAtLastClick := [objA, objB], currentObjectIndex := 0 }

/-- Viewer state after the third click: the cycle advanced to B, and the
selection change reset the cycle state again. -/
def v3 : ViewerState :=
  { selectedObjectId := some "B", clickedObject := some objB
    objectsAtLastClick := [], currentObjectIndex := 0 }

/-- C5: the points function maps attempt counts 1, 2, 3, 4 to 10, 8, 6, 4,
and every attempt count at least 5 to 2. -/
theorem calculatePoints_spec :
    calculatePoints 1 = 10 ∧ calculatePoints 2 = 8 ∧ calculatePoints 3 = 6 ∧
    calculatePoints 4 = 4 ∧ ∀ n : ℕ, 5 ≤ n → calculatePoints n = 2 := by
  refine ⟨rfl, rfl, rfl, rfl, ?_⟩
  intro n h
  unfold calculatePoints
  rw [if_neg (by omega), if_neg (by omega), if_neg (by omega), if_neg (by omega),
      if_pos (by omega)]

/-- Witness for C5 at attempt count 7. -/
theorem calculatePoints_spec_witness : calculatePoints 7 = 2 :=
  calculatePoints_spec.2.2.2.2 7 (by norm_num)

/-- C10: accepting a guess ("Ja") unconditionally ends the round and
awards `calculatePoints attemptCount` to the AI, for every state — in
particular with no comparison of the presented candidate against the
human's picked object; the human's score is untouched. -/
theorem guessAccepted_unconditionalAward (s : AppState) :
    (handleYes s).gameState = GState.ROUND_OVER ∧
    (handleYes s).score.ai = s.score.ai + calculatePoints s.attemptCount ∧
    (handleYes s).score.user = s.score.user ∧
    (handleYes s).attemptCount = s.attemptCount :=
  ⟨rfl, rfl, rfl, rfl⟩

/-- C9: in the human-guessing phase a click on any object other than the
AI's pick keeps the phase and both scores unchanged and increments the
attempt counter by exactly one. -/
theorem humanGuessing_wrongClick (s : AppState) (objectId : String)
    (clickedObject aiSel : GameObject)
    (hfind : s.objects.find? (fun o => o.id == objectId) = some clickedObject)
    (hphase : s.gameState = GState.USER_GUESSING)
    (hai : s.aiSelection = some aiSel)
    (hne : clickedObject.id ≠ aiSel.id) :
    (handleMaskClick s objectId).gameState = GState.USER_GUESSING ∧
    (handleMaskClick s objectId).score = s.score ∧
    (handleMaskClick s objectId).attemptCount = s.attemptCount + 1 := by
  unfold handleMaskClick
  rw [hfind]
  simp [hphase, hai, hne]

/-- Witness for C9: clicking the large object while the AI picked the
small one. -/
theorem humanGuessing_wrongClick_witness :
    (handleMaskClick s9 "B").gameState = GState.USER_GUESSING ∧
    (handleMaskClick s9 "B").score = s9.score ∧
    (handleMaskClick s9 "B").attemptCount = s9.attemptCount + 1 :=
  humanGuessing_wrongClick s9 "B" objB objA (by simp [s9, stackObjs, objB, objA])
    (by simp [s9]) (by simp [s9]) (by simp [objA, objB])
/-- C7: a front candidate whose label matches no stored object
(case-insensitively) is silently dropped from the guess queue; attempt
counter, both scores and the phase are unchanged. -/
theorem unmatchedCandidate_skipped (s : AppState) (g : GameObject)
    (rest : List GameObject) (u : GameObject)
    (hq : s.aiGuesses = g :: rest)
    (hu : s.userSelection = some u)
    (hmatch : s.objects.find?
      (fun o => toLowerString o.label == toLowerString g.label) = none) :
    handleAiGuess s = { s with aiGuesses := rest } ∧
    (handleAiGuess s).attemptCount = s.attemptCount ∧
    (handleAiGuess s).score = s.score ∧
    (handleAiGuess s).gameState = s.gameState := by
  have h : handleAiGuess s = { s with aiGuesses := rest } := by
    simp only [handleAiGuess, hq, hu, hmatch]
  exact ⟨h, by rw [h], by rw [h], by rw [h]⟩

/-- Witness for C7: the candidate labelled "Stuhl" matches neither stored
object and is dropped without any other state change. -/
theorem unmatchedCandidate_skipped_witness :
    handleAiGuess s7 = { s7 with aiGuesses := [guessA] } ∧
    (handleAiGuess s7).attemptCount = s7.attemptCount ∧
    (handleAiGuess s7).score = s7.score ∧
    (handleAiGuess s7).gameState = s7.gameState :=
  unmatchedCandidate_skipped s7 guessStuhl [guessA] objA (by simp [s7])
    (by simp [s7]) (by decide)
/-- Helper: iterating the dispatch effect from a state it does not change
returns that state, for any fuel. -/
theorem effectIter_fixed (n : ℕ) (s : AppState) (h : effectStep s = s) :
    effectIter n s = s := by
  cases n with
  | zero => rfl
  | succ n => simp [effectIter, h]

/-- C8: a failed description generation (missing or whitespace-only model
text) yields the fixed fallback sentinel, and the round continues into the
human-guessing phase instead of the error state, announcing the fallback
clue. -/
theorem descriptionFailure_fallback (s : AppState) (sel : GameObject)
    (rt : Option String)
    (hfail : rt = none ∨ ∃ t, rt = some t ∧ t.trim = "") :
    generateDescriptionForObject rt = descriptionFallback ∧
    (aiPickingResolve s sel (generateDescriptionForObject rt)).gameState
      = GState.USER_GUESSING ∧
    (aiPickingResolve s sel (generateDescriptionForObject rt)).gameState
      ≠ GState.ERROR ∧
    (aiPickingResolve s sel (generateDescriptionForObject rt)).message
      = "Ich sehe was, was du nicht siehst, und das ist " ++ descriptionFallback := by
  have hd : generateDescriptionForObject rt = descriptionFallback := by
    rcases hfail with h | ⟨t, h, ht⟩
    · simp [generateDescriptionForObject, h]
    · simp [generateDescriptionForObject, h, ht]
  refine ⟨hd, rfl, by simp [aiPickingResolve], ?_⟩
  simp [aiPickingResolve, hd]

/-- Witness for C8: a missing response text during AI picking. -/
theorem descriptionFailure_fallback_witness :
    generateDescriptionForObject none = descriptionFallback ∧
    (aiPickingResolve s8 objA (generateDescriptionForObject none)).gameState
      = GState.USER_GUESSING ∧
    (aiPickingResolve s8 objA (generateDescriptionForObject none)).gameState
      ≠ GState.ERROR ∧
    (aiPickingResolve s8 objA (generateDescriptionForObject none)).message
      = "Ich sehe was, was du nicht siehst, und das ist " ++ descriptionFallback :=
  descriptionFailure_fallback s8 objA none (Or.inl rfl)

/-- C3 (divergence witness): rejecting the AI's last remaining candidate
("Nein" with a one-element queue) increments the attempt counter and
empties the queue as claimed, but the game then stays in `AI_GUESSING`
with both scores unchanged: the dispatch effect only runs `handleAiGuess`
for a non-empty queue, so the written failure-bonus branch
(`RoundOver`, human +10) is never reached. -/
theorem guessRejected_lastCandidate_stalls :
    (guessRejected s3).gameState = GState.AI_GUESSING ∧
    (guessRejected s3).gameState ≠ GState.ROUND_OVER ∧
    (guessRejected s3).score = s3.score ∧
    (guessRejected s3).attemptCount = s3.attemptCount + 1 ∧
    (guessRejected s3).aiGuesses = [] := by
  have hno : handleNo s3 = { s3 with attemptCount := 2, aiGuesses := [] } := by
    simp [handleNo, s3]
  have hfix : effectStep { s3 with attemptCount := 2, aiGuesses := [] }
      = { s3 with attemptCount := 2, aiGuesses := [] } := by
    simp [effectStep]
  have h : guessRejected s3 = { s3 with attemptCount := 2, aiGuesses := [] } := by
    unfold guessRejected
    rw [hno, effectIter_fixed _ _ hfix]
  rw [h]
  exact ⟨by simp [s3], by simp [s3], rfl, by simp [s3], rfl⟩

/-- C4 (divergence witness): the speech hook reports raw Web Speech error
codes, while the orchestrator's error effect looks for German message
fragments; so the fatal codes ("not-allowed" alias permission-denied,
"not-supported") never reach the `ERROR` state — the phase stays
`USER_DESCRIBING` — whereas the recoverable "no-speech" path behaves as
specified (message updated, phase retained). -/
theorem speechError_fatalCodesIgnored :
    (onSpeechError s4 "not-allowed").gameState = GState.USER_DESCRIBING ∧
    (onSpeechError s4 "not-allowed").gameState ≠ GState.ERROR ∧
    (onSpeechError s4 "permission-denied").gameState ≠ GState.ERROR ∧
    (onSpeechError s4 "not-supported").gameState ≠ GState.ERROR ∧
    (onSpeechError s4 "no-speech").gameState = GState.USER_DESCRIBING ∧
    (onSpeechError s4 "no-speech").message = "no-speech" := by
  refine ⟨?_, ?_, ?_, ?_, ?_, ?_⟩ <;> decide
theorem objA_id : objA.id = "A" := rfl
theorem objB_id : objB.id = "B" := rfl

theorem hits_stack : getObjectsAtPosition stackObjs clickPt = [objB, objA] := by
  norm_num [getObjectsAtPosition, stackObjs, clickPt, objA, objB,
    isPointInPolygon, edgeCross, List.filter]

theorem sort_stack : [objB, objA].mergeSort areaLE = [objA, objB] := by
  norm_num [List.mergeSort, areaLE, getPolygonArea, objA, objB]

theorem click1 : pickingClick stackObjs clickPt initialViewerState = v1 := by
  have hne : ([objB, objA] : List GameObject) = [] ↔ False := iff_false_intro (by simp)
  unfold pickingClick handlePolygonClick
  rw [hits_stack]
  norm_num [sort_stack, initialViewerState, v1, stackObjs, List.getD, objA_id, objB_id,
    hne, List.find?]
  simp
theorem click2 : pickingClick stackObjs clickPt v1 = v2 := by
  have hne : ([objB, objA] : List GameObject) = [] ↔ False := iff_false_intro (by simp)
  unfold pickingClick handlePolygonClick
  rw [hits_stack]
  norm_num [sort_stack, v1, v2, stackObjs, List.getD, objA_id, objB_id, hne, List.find?]

theorem click3 : pickingClick stackObjs clickPt v2 = v3 := by
  have hne : ([objB, objA] : List GameObject) = [] ↔ False := iff_false_intro (by simp)
  unfold pickingClick handlePolygonClick
  rw [hits_stack]
  norm_num [sort_stack, v2, v3, stackObjs, List.getD, objA_id, objB_id, hne, List.find?]
  simp

theorem click4 : pickingClick stackObjs clickPt v3 = v1 := by
  have hne : ([objB, objA] : List GameObject) = [] ↔ False := iff_false_intro (by simp)
  unfold pickingClick handlePolygonClick
  rw [hits_stack]
  norm_num [sort_stack, v3, v1, stackObjs, List.getD, objA_id, objB_id, hne, List.find?]
  simp
/-- C1 (counterexample): with the small object A and the large object B
both containing the click point, the SECOND click at the same point still
selects A, not B — the parent stores the first selection, the changed
`selectedObjectId` prop resets the viewer's cycle state, and the second
click starts a fresh cycle at index 0. -/
theorem repeatedClick_secondSelectsSmallest :
    isPointInPolygon clickPt objA.mask = true ∧
    isPointInPolygon clickPt objB.mask = true ∧
    getPolygonArea objA.mask < getPolygonArea objB.mask ∧
    (pickingClick stackObjs clickPt
        (pickingClick stackObjs clickPt initialViewerState)).clickedObject
      = some objA ∧
    (pickingClick stackObjs clickPt
        (pickingClick stackObjs clickPt initialViewerState)).clickedObject
      ≠ some objB := by
  refine ⟨?_, ?_, ?_, ?_, ?_⟩
  · norm_num [clickPt, objA, isPointInPolygon, edgeCross]
  · norm_num [clickPt, objB, isPointInPolygon, edgeCross]
  · norm_num [objA, objB, getPolygonArea]
  · rw [click1, click2]
    rfl
  · rw [click1, click2]
    simp [v2, objA, objB]

/-- C1 (amended): clicks on a stack of overlapping objects select the
smallest object first, and the cycle index advances only on a click whose
predecessor did not change the parent-held selection (each selection
change resets the viewer's cycle state); with A (small) and B (large) the
observed sequence is A, A, B, A. -/
theorem repeatedClick_cycleAfterReset :
    (pickingClick stackObjs clickPt initialViewerState).clickedObject = some objA ∧
    (pickingClick stackObjs clickPt
        (pickingClick stackObjs clickPt initialViewerState)).clickedObject
      = some objA ∧
    (pickingClick stackObjs clickPt (pickingClick stackObjs clickPt
        (pickingClick stackObjs clickPt initialViewerState))).clickedObject
      = some objB ∧
    (pickingClick stackObjs clickPt (pickingClick stackObjs clickPt
        (pickingClick stackObjs clickPt (pickingClick stackObjs clickPt
          initialViewerState)))).clickedObject
      = some objA := by
  rw [click1, click2, click3, click4]
  exact ⟨rfl, rfl, rfl, rfl⟩
theorem rectAreaLE_trans : ∀ a b c : MaskRect,
    rectAreaLE a b = true → rectAreaLE b c = true → rectAreaLE a c = true := by
  intro a b c hab hbc
  simp only [rectAreaLE, decide_eq_true_eq] at *
  exact le_trans hab hbc

theorem rectAreaLE_total : ∀ a b : MaskRect,
    (rectAreaLE a b || rectAreaLE b a) = true := by
  intro a b
  simp only [rectAreaLE, Bool.or_eq_true, decide_eq_true_eq]
  exact le_total _ _

theorem find?_sorted_min (p : MaskRect → Bool) :
    ∀ (l : List MaskRect), l.Pairwise (fun a b => rectAreaLE a b = true) →
    ∀ (f : MaskRect), l.find? p = some f →
    ∀ x ∈ l, p x = true → rectArea f ≤ rectArea x := by
  intro l
  induction l with
  | nil => intro _ f hf; simp at hf
  | cons a t ih =>
    intro hl f hf x hx hpx
    rcases List.pairwise_cons.mp hl with ⟨ha, ht⟩
    by_cases hpa : p a = true
    · rw [List.find?_cons_of_pos _ hpa, Option.some.injEq] at hf
      subst hf
      rcases List.mem_cons.mp hx with rfl | hxt
      · exact le_refl _
      · have := ha x hxt
        simpa [rectAreaLE, decide_eq_true_eq] using this
    · rw [List.find?_cons_of_neg _ hpa] at hf
      rcases List.mem_cons.mp hx with rfl | hxt
      · exact absurd hpx hpa
      · exact ih ht f hf x hxt hpx

/-- C2 (amended): whenever some rendered rectangle contains the pointer
(and all rectangles carry a non-empty object id), the hover resolution
returns the id of a containing rectangle of minimal — not maximal —
area. -/
theorem separateHover_selectsSmallestRect (rects : List MaskRect) (cx cy : ℚ)
    (hid : ∀ r ∈ rects, ∃ i, r.objectId = some i ∧ i ≠ "")
    (hex : ∃ r ∈ rects, rectContains r cx cy = true) :
    ∃ r ∈ rects, handleSetHoveredObject rects cx cy = r.objectId ∧
      rectContains r cx cy = true ∧
      ∀ x ∈ rects, rectContains x cx cy = true → rectArea r ≤ rectArea x := by
  have hperm : (rects.mergeSort rectAreaLE).Perm rects := List.mergeSort_perm rects _
  obtain ⟨r0, hr0, hc0⟩ := hex
  have hr0s : r0 ∈ rects.mergeSort rectAreaLE := hperm.mem_iff.mpr hr0
  have hsome : ((rects.mergeSort rectAreaLE).find? (fun r => rectContains r cx cy)).isSome := by
    rw [List.find?_isSome]
    exact ⟨r0, hr0s, hc0⟩
  obtain ⟨f, hf⟩ := Option.isSome_iff_exists.mp hsome
  have hfmem : f ∈ rects.mergeSort rectAreaLE := List.mem_of_find?_eq_some hf
  have hfmem' : f ∈ rects := hperm.mem_iff.mp hfmem
  have hfc : rectContains f cx cy = true := by
    have h := (List.find?_eq_some.mp hf).1
    simpa using h
  have hsorted : (rects.mergeSort rectAreaLE).Pairwise (fun a b => rectAreaLE a b = true) :=
    List.sorted_mergeSort rectAreaLE_trans rectAreaLE_total rects
  have hmin := find?_sorted_min _ _ hsorted f hf
  obtain ⟨i, hi, hine⟩ := hid f hfmem'
  refine ⟨f, hfmem', ?_, hfc, ?_⟩
  · unfold handleSetHoveredObject
    simp only [handleSetHoveredObject, hf, hi]
    exact if_neg hine
  · intro x hx hcx
    exact hmin x (hperm.mem_iff.mpr hx) hcx

/-- Witness for the amended C2 at the nested-rectangles input. -/
theorem separateHover_selectsSmallestRect_witness :
    ∃ r ∈ hoverRects, handleSetHoveredObject hoverRects 3 3 = r.objectId ∧
      rectContains r 3 3 = true ∧
      ∀ x ∈ hoverRects, rectContains x 3 3 = true → rectArea r ≤ rectArea x :=
  separateHover_selectsSmallestRect hoverRects 3 3
    (by
      intro r hr
      rcases List.mem_cons.mp hr with rfl | hr
      · exact ⟨"B", rfl, by decide⟩
      · rcases List.mem_cons.mp hr with rfl | hr
        · exact ⟨"A", rfl, by decide⟩
        · simp at hr)
    ⟨rSmall, by simp [hoverRects], by norm_num [rectContains, rSmall]⟩

/-- C2 (counterexample): the pointer lies in both the small and the large
rectangle, yet hover resolves to the smallest-area candidate "A", not to
the largest-area candidate "B". -/
theorem hover_returnsSmallest_notLargest :
    rectContains rBig 3 3 = true ∧ rectContains rSmall 3 3 = true ∧
    rectArea rSmall < rectArea rBig ∧
    handleSetHoveredObject hoverRects 3 3 = some "A" ∧
    handleSetHoveredObject hoverRects 3 3 ≠ some "B" := by
  refine ⟨by norm_num [rectContains, rBig], by norm_num [rectContains, rSmall],
    by norm_num [rectArea, rBig, rSmall], ?_, ?_⟩ <;>
    norm_num [handleSetHoveredObject, hoverRects, List.mergeSort, rectAreaLE, rectArea,
      rectContains, rBig, rSmall, List.find?] <;> simp
theorem foldl_flip_eq_parity {α : Type} (c : α → Bool) :
    ∀ (l : List α) (b : Bool),
      l.foldl (fun ins e => if c e then !ins else ins) b
        = (b != decide (Odd (l.countP c))) := by
  intro l
  induction l with
  | nil => intro b; simp
  | cons e t ih =>
    intro b
    rw [List.foldl_cons, ih, List.countP_cons]
    cases hc : c e
    · simp [hc]
    · simp only [hc, if_true]
      cases hb : decide (Odd (t.countP c)) <;> cases b <;>
        simp_all [Nat.odd_add_one]

theorem isPointInPolygon_eq_parity (point : ℚ × ℚ) (polygon : List (ℚ × ℚ)) :
    isPointInPolygon point polygon = decide (Odd (specRayCrossings point polygon)) := by
  match polygon with
  | [] => simp [isPointInPolygon, specRayCrossings]
  | p :: ps =>
    simp only [isPointInPolygon, specRayCrossings]
    rw [foldl_flip_eq_parity]
    simp

theorem isPointInPolygon_iff_specInside (point : ℚ × ℚ) (polygon : List (ℚ × ℚ)) :
    isPointInPolygon point polygon = true ↔ specInside point polygon := by
  rw [isPointInPolygon_eq_parity, specInside, decide_eq_true_eq]
theorem foldl_min_le_init : ∀ (l : List ℚ) (a : ℚ), l.foldl min a ≤ a := by
  intro l
  induction l with
  | nil => intro a; simp
  | cons h t ih =>
    intro a
    rw [List.foldl_cons]
    exact le_trans (ih (min a h)) (min_le_left a h)

theorem foldl_min_le_mem : ∀ (l : List ℚ) (a : ℚ) (x : ℚ), x ∈ l → l.foldl min a ≤ x := by
  intro l
  induction l with
  | nil => intro a x hx; simp at hx
  | cons h t ih =>
    intro a x hx
    rw [List.foldl_cons]
    rcases List.mem_cons.mp hx with rfl | hxt
    · exact le_trans (foldl_min_le_init t (min a x)) (min_le_right a x)
    · exact ih (min a h) x hxt

theorem le_foldl_max_init : ∀ (l : List ℚ) (a : ℚ), a ≤ l.foldl max a := by
  intro l
  induction l with
  | nil => intro a; simp
  | cons h t ih =>
    intro a
    rw [List.foldl_cons]
    exact le_trans (le_max_left a h) (ih (max a h))

theorem le_foldl_max_mem : ∀ (l : List ℚ) (a : ℚ) (x : ℚ), x ∈ l → x ≤ l.foldl max a := by
  intro l
  induction l with
  | nil => intro a x hx; simp at hx
  | cons h t ih =>
    intro a x hx
    rw [List.foldl_cons]
    rcases List.mem_cons.mp hx with rfl | hxt
    · exact le_trans (le_max_right a x) (le_foldl_max_init t (max a x))
    · exact ih (max a h) x hxt

theorem mask_coord_bounds {mask : List (ℚ × ℚ)} {q : ℚ × ℚ} (hq : q ∈ mask) :
    maskMinX mask ≤ q.1 ∧ q.1 ≤ maskMaxX mask ∧
    maskMinY mask ≤ q.2 ∧ q.2 ≤ maskMaxY mask := by
  match mask with
  | [] => simp at hq
  | p :: ps =>
    rcases List.mem_cons.mp hq with rfl | hqt
    · exact ⟨foldl_min_le_init _ _, le_foldl_max_init _ _,
        foldl_min_le_init _ _, le_foldl_max_init _ _⟩
    · refine ⟨foldl_min_le_mem _ _ _ ?_, le_foldl_max_mem _ _ _ ?_,
        foldl_min_le_mem _ _ _ ?_, le_foldl_max_mem _ _ _ ?_⟩
      · exact List.mem_map_of_mem Prod.fst hqt
      · exact List.mem_map_of_mem Prod.fst hqt
      · exact List.mem_map_of_mem Prod.snd hqt
      · exact List.mem_map_of_mem Prod.snd hqt

theorem prevs_perm (p : ℚ × ℚ) (ps : List (ℚ × ℚ)) :
    ((p :: ps).getLast (List.cons_ne_nil p ps) :: (p :: ps).dropLast).Perm (p :: ps) := by
  have h := List.dropLast_append_getLast (List.cons_ne_nil p ps)
  have hp := (List.perm_append_singleton
    ((p :: ps).getLast (List.cons_ne_nil p ps)) ((p :: ps).dropLast)).symm
  rw [h] at hp
  exact hp
theorem straddle_cases {y y1 y2 : ℚ}
    (h : (decide (y1 > y) != decide (y2 > y)) = true) :
    (y1 ≤ y ∧ y < y2) ∨ (y2 ≤ y ∧ y < y1) := by
  by_cases h1 : y1 > y <;> by_cases h2 : y2 > y <;> simp [h1, h2] at h ⊢ <;> linarith

theorem xint_bounds (x1 y1 x2 y2 y : ℚ)
    (h : (decide (y1 > y) != decide (y2 > y)) = true) :
    min x1 x2 ≤ (x2 - x1) * (y - y1) / (y2 - y1) + x1 ∧
    (x2 - x1) * (y - y1) / (y2 - y1) + x1 ≤ max x1 x2 := by
  have ht : 0 ≤ (y - y1) / (y2 - y1) ∧ (y - y1) / (y2 - y1) ≤ 1 := by
    rcases straddle_cases h with ⟨ha, hb⟩ | ⟨ha, hb⟩
    · constructor
      · exact div_nonneg (by linarith) (by linarith)
      · rw [div_le_one (by linarith)]
        linarith
    · constructor
      · rw [div_nonneg_iff]
        right
        constructor <;> linarith
      · rw [div_le_one_iff]
        right; right
        constructor <;> linarith
  obtain ⟨ht0, ht1⟩ := ht
  rw [mul_div_assoc]
  set t := (y - y1) / (y2 - y1)
  rcases le_total x1 x2 with hx | hx
  · constructor
    · have : 0 ≤ (x2 - x1) * t := mul_nonneg (by linarith) ht0
      have := min_le_left x1 x2
      linarith
    · have : (x2 - x1) * t ≤ (x2 - x1) * 1 := by
        apply mul_le_mul_of_nonneg_left ht1 (by linarith)
      have := le_max_right x1 x2
      linarith
  · constructor
    · have : (x2 - x1) * t ≥ (x2 - x1) * 1 := by
        apply mul_le_mul_of_nonpos_left ht1 (by linarith)
      have := min_le_right x1 x2
      linarith
    · have : (x2 - x1) * t ≤ 0 := mul_nonpos_of_nonpos_of_nonneg (by linarith) ht0
      have := le_max_left x1 x2
      linarith
theorem countP_bne_zip_mod2 {α : Type} (g : α → Bool) :
    ∀ (u v : List α), u.length = v.length →
      (u.zip v).countP (fun e => g e.1 != g e.2) % 2
        = (u.countP g + v.countP g) % 2 := by
  intro u
  induction u with
  | nil =>
    intro v hv
    have hveq : v = [] := List.length_eq_zero.mp (by simpa using hv.symm)
    subst hveq
    simp
  | cons a u ih =>
    intro v hv
    match v with
    | [] => simp at hv
    | b :: v =>
      have hlen : u.length = v.length := by simpa using hv
      rw [List.zip_cons_cons, List.countP_cons, List.countP_cons, List.countP_cons]
      have := ih v hlen
      cases hga : g a <;> cases hgb : g b <;> simp [hga, hgb] <;> omega
theorem zip_prevs_length (p : ℚ × ℚ) (ps : List (ℚ × ℚ)) :
    (p :: ps).length
      = ((p :: ps).getLast (List.cons_ne_nil p ps) :: (p :: ps).dropLast).length := by
  simp [List.length_dropLast]

theorem outside_bbox_not_inside (x y : ℚ) (mask : List (ℚ × ℚ))
    (h : strictlyOutsideBBox (x, y) mask) :
    isPointInPolygon (x, y) mask = false := by
  match mask with
  | [] => rfl
  | p :: ps =>
    rw [isPointInPolygon_eq_parity, decide_eq_false_iff_not]
    simp only [specRayCrossings]
    rw [Nat.odd_iff]
    have hperm := prevs_perm p ps
    have hmem2 : ∀ e ∈ (p :: ps).zip
        ((p :: ps).getLast (List.cons_ne_nil p ps) :: (p :: ps).dropLast),
        e.1 ∈ (p :: ps) ∧ e.2 ∈ (p :: ps) := by
      intro e he
      have h12 := List.of_mem_zip he
      exact ⟨h12.1, hperm.mem_iff.mp h12.2⟩
    rcases h with hx | hx | hy | hy
    · -- x strictly left of the bounding box: every straddling edge crosses
      -- the rightward ray, and the number of straddling edges is even
      have hcong : ∀ e ∈ (p :: ps).zip
          ((p :: ps).getLast (List.cons_ne_nil p ps) :: (p :: ps).dropLast),
          edgeCross x y e.1 e.2
            = ((fun q : ℚ × ℚ => decide (q.2 > y)) e.1
                != (fun q : ℚ × ℚ => decide (q.2 > y)) e.2) := by
        intro e he
        obtain ⟨h1, h2⟩ := hmem2 e he
        by_cases hstr : (decide (e.1.2 > y) != decide (e.2.2 > y)) = true
        · have hxi := (xint_bounds e.1.1 e.1.2 e.2.1 e.2.2 y hstr).1
          have hb1 := (mask_coord_bounds h1).1
          have hb2 := (mask_coord_bounds h2).1
          have hmin : maskMinX (p :: ps) ≤ min e.1.1 e.2.1 := le_min hb1 hb2
          simp only [edgeCross, hstr, Bool.true_and]
          rw [decide_eq_true_eq]
          calc x < maskMinX (p :: ps) := hx
            _ ≤ min e.1.1 e.2.1 := hmin
            _ ≤ (e.2.1 - e.1.1) * (y - e.1.2) / (e.2.2 - e.1.2) + e.1.1 := hxi
        · simp only [edgeCross, Bool.and_eq_true, not_and] at *
          simp [Bool.not_eq_true] at hstr
          simp [edgeCross, hstr]
      rw [List.countP_congr (fun e he => by rw [hcong e he]),
        countP_bne_zip_mod2 (fun q : ℚ × ℚ => decide (q.2 > y)) _ _ (zip_prevs_length p ps),
        hperm.countP_eq]
      omega
    · -- x strictly right of the bounding box: no edge crosses the ray
      have h0 : ((p :: ps).zip
          ((p :: ps).getLast (List.cons_ne_nil p ps) :: (p :: ps).dropLast)).countP
            (fun e => edgeCross x y e.1 e.2) = 0 := by
        rw [List.countP_eq_zero]
        intro e he
        obtain ⟨h1, h2⟩ := hmem2 e he
        by_cases hstr : (decide (e.1.2 > y) != decide (e.2.2 > y)) = true
        · have hxi := (xint_bounds e.1.1 e.1.2 e.2.1 e.2.2 y hstr).2
          have hb1 := (mask_coord_bounds h1).2.1
          have hb2 := (mask_coord_bounds h2).2.1
          have hmax : max e.1.1 e.2.1 ≤ maskMaxX (p :: ps) := max_le hb1 hb2
          simp only [edgeCross, hstr, Bool.true_and]
          rw [decide_eq_true_eq]
          intro hlt
          have : (e.2.1 - e.1.1) * (y - e.1.2) / (e.2.2 - e.1.2) + e.1.1 ≤ maskMaxX (p :: ps) :=
            le_trans hxi hmax
          linarith
        · simp [Bool.not_eq_true] at hstr
          simp [edgeCross, hstr]
      rw [h0]
      omega
    · -- y strictly below the bounding box: no edge straddles
      have h0 : ((p :: ps).zip
          ((p :: ps).getLast (List.cons_ne_nil p ps) :: (p :: ps).dropLast)).countP
            (fun e => edgeCross x y e.1 e.2) = 0 := by
        rw [List.countP_eq_zero]
        intro e he
        obtain ⟨h1, h2⟩ := hmem2 e he
        have hb1 := (mask_coord_bounds h1).2.2.1
        have hb2 := (mask_coord_bounds h2).2.2.1
        have hg1 : decide (e.1.2 > y) = true := by rw [decide_eq_true_eq]; linarith
        have hg2 : decide (e.2.2 > y) = true := by rw [decide_eq_true_eq]; linarith
        simp [edgeCross, hg1, hg2]
      rw [h0]
      omega
    · -- y strictly above the bounding box: no edge straddles
      have h0 : ((p :: ps).zip
          ((p :: ps).getLast (List.cons_ne_nil p ps) :: (p :: ps).dropLast)).countP
            (fun e => edgeCross x y e.1 e.2) = 0 := by
        rw [List.countP_eq_zero]
        intro e he
        obtain ⟨h1, h2⟩ := hmem2 e he
        have hb1 := (mask_coord_bounds h1).2.2.2
        have hb2 := (mask_coord_bounds h2).2.2.2
        have hg1 : decide (e.1.2 > y) = false := by
          rw [decide_eq_false_iff_not]
          intro hc
          linarith
        have hg2 : decide (e.2.2 > y) = false := by
          rw [decide_eq_false_iff_not]
          intro hc
          linarith
        simp [edgeCross, hg1, hg2]
      rw [h0]
      omega
theorem edgeCross_swap (x y : ℚ) (p q : ℚ × ℚ) :
    edgeCross x y p q = edgeCross x y q p := by
  by_cases hstr : (decide (p.2 > y) != decide (q.2 > y)) = true
  · have hstr' : (decide (q.2 > y) != decide (p.2 > y)) = true := by
      cases hp : decide (p.2 > y) <;> cases hq : decide (q.2 > y) <;> simp_all
    have hne : q.2 - p.2 ≠ 0 := by
      intro hc
      have : q.2 = p.2 := by linarith
      rw [this] at hstr
      simp at hstr
    have hne' : p.2 - q.2 ≠ 0 := by intro hc; apply hne; linarith
    have hxint : (q.1 - p.1) * (y - p.2) / (q.2 - p.2) + p.1
        = (p.1 - q.1) * (y - q.2) / (p.2 - q.2) + q.1 := by
      field_simp
      ring
    simp only [edgeCross, hstr, hstr', Bool.true_and]
    rw [hxint]
  · have hstr' : ¬(decide (q.2 > y) != decide (p.2 > y)) = true := by
      cases hp : decide (p.2 > y) <;> cases hq : decide (q.2 > y) <;> simp_all
    simp only [Bool.not_eq_true] at hstr hstr'
    simp [edgeCross, hstr, hstr']

theorem degenerate_not_inside (x y : ℚ) (mask : List (ℚ × ℚ))
    (h : mask.length < 3) :
    isPointInPolygon (x, y) mask = false := by
  match mask with
  | [] => rfl
  | [p] =>
    simp [isPointInPolygon, edgeCross]
  | [p, q] =>
    have hswap := edgeCross_swap x y p q
    simp only [isPointInPolygon, List.getLast, List.dropLast, List.zip, List.zipWith,
      List.foldl]
    rw [← hswap]
    have hbool : ∀ b : Bool,
        (if b = true then !(if b = true then !false else false)
          else (if b = true then !false else false)) = false := by decide
    exact hbool _
  | p :: q :: r :: rest =>
    simp at h
    omega
/-- C6: (a) every object whose mask contains the point — containment in
the spec's own sense: a rightward horizontal ray crosses an odd number of
edges under the half-open rule — is in the hit set; (b) an object is
excluded at every point strictly outside its mask's bounding box; (c) an
object with a degenerate mask (fewer than 3 points) is never hit. -/
theorem hitTest_spec (objects : List GameObject) (point : ℚ × ℚ) (obj : GameObject) :
    (obj ∈ objects → specInside point obj.mask →
        obj ∈ getObjectsAtPosition objects point) ∧
    (strictlyOutsideBBox point obj.mask →
        obj ∉ getObjectsAtPosition objects point) ∧
    (obj.mask.length < 3 → obj ∉ getObjectsAtPosition objects point) := by
  refine ⟨?_, ?_, ?_⟩
  · intro hm hin
    rw [getObjectsAtPosition, List.mem_filter]
    exact ⟨hm, (isPointInPolygon_iff_specInside point obj.mask).mpr hin⟩
  · intro hout hmem
    rw [getObjectsAtPosition, List.mem_filter] at hmem
    have hfalse : isPointInPolygon point obj.mask = false :=
      outside_bbox_not_inside point.1 point.2 obj.mask hout
    rw [hmem.2] at hfalse
    simp at hfalse
  · intro hdeg hmem
    rw [getObjectsAtPosition, List.mem_filter] at hmem
    have hfalse : isPointInPolygon point obj.mask = false :=
      degenerate_not_inside point.1 point.2 obj.mask hdeg
    rw [hmem.2] at hfalse
    simp at hfalse
/-- Witness for C6: the small square is hit at its interior point; it is
excluded at a point strictly outside its bounding box; the degenerate
two-point mask is never hit. -/
theorem hitTest_spec_witness :
    objA ∈ getObjectsAtPosition stackObjs clickPt ∧
    objA ∉ getObjectsAtPosition stackObjs (2, 2) ∧
    objDegenerate ∉ getObjectsAtPosition [objDegenerate] clickPt := by
  refine ⟨(hitTest_spec stackObjs clickPt objA).1 (by simp [stackObjs]) ?_,
    (hitTest_spec stackObjs (2, 2) objA).2.1 ?_,
    (hitTest_spec [objDegenerate] clickPt objDegenerate).2.2 (by norm_num [objDegenerate])⟩
  · have h1 : specRayCrossings clickPt objA.mask = 1 := by
      norm_num [specRayCrossings, edgeCross, clickPt, objA, List.countP, List.countP.go]
    rw [specInside, h1]
    exact ⟨0, by norm_num⟩
  · norm_num [strictlyOutsideBBox, maskMinX, maskMaxX, maskMinY, maskMaxY, objA]
